import Mathlib

/-!
Verification of the canine pipeline orchestrator: a shallow embedding of the
Orchestrator (orchestrator.py), the Localizer (localization.py) and the CLI
config merge (__main__.py), with theorems settling the specified behaviour of
script validation, input localization planning, the common-input set, per-task
setup script synthesis, the poll loop, staging cleanup and delocalization.
Paths are plain strings joined with "/", filesystems are lists of existing
paths, and each stateful routine is an explicit state-passing function.
-/

namespace Canine

/-! ## Path helpers, modelling os.path on POSIX -/

/-- os.path.join for two components, as used throughout the source with
relative, slash-free components. -/
def joinPath (a b : String) : String := a ++ "/" ++ b

/-- Split a character list at every occurrence of a separator (str.split). -/
def splitOnChar : List Char → Char → List (List Char)
  | [], _ => [[]]
  | x :: xs, c =>
    if x = c then [] :: splitOnChar xs c
    else
      match splitOnChar xs c with
      | h :: t => (x :: h) :: t
      | [] => [[x]]

/-- str.startswith. -/
def strStartsWith (s t : String) : Bool := t.toList.isPrefixOf s.toList

/-- str.lower on ASCII, as applied to the override mode strings. -/
def lowerChar (c : Char) : Char :=
  if 'A' ≤ c ∧ c ≤ 'Z' then Char.ofNat (c.toNat + 32) else c

/-- str.lower. -/
def strToLower (s : String) : String := String.mk (s.toList.map lowerChar)

/-- Drop the first n characters of a string. -/
def strDrop (s : String) (n : Nat) : String := String.mk (s.toList.drop n)

/-- os.path.basename: everything after the last slash. -/
def basename (p : String) : String := String.mk ((splitOnChar p.toList '/').getLastD p.toList)

/-- Index of the last occurrence of a character in a list, if any. -/
def lastIndexOf : List Char → Char → Option Nat
  | [], _ => Option.none
  | x :: xs, c =>
    match lastIndexOf xs c with
    | some i => some (i + 1)
    | Option.none => if x = c then some 0 else Option.none

/-- posixpath.splitext: split off the extension at the last dot, provided that
dot follows the last slash and the basename up to it is not all dots. -/
def splitext (p : String) : String × String :=
  let cs := p.toList
  match lastIndexOf cs '.' with
  | Option.none => (p, "")
  | some dotIndex =>
    let sepIndex : Int :=
      match lastIndexOf cs '/' with
      | Option.none => -1
      | some i => (i : Int)
    if (dotIndex : Int) > sepIndex then
      let fnameStart := (sepIndex + 1).toNat
      if ((cs.drop fnameStart).take (dotIndex - fnameStart)).any (fun ch => ch ≠ '.') then
        (String.mk (cs.take dotIndex), String.mk (cs.drop dotIndex))
      else (p, "")
    else (p, "")

/-- Python str.replace for a single-character needle. -/
def replaceChar (s : String) (c : Char) (r : String) : String :=
  String.mk (s.toList.flatMap (fun x => if x = c then r.toList else [x]))

/-- Whether `t` is a suffix of `s` (str.endswith). -/
def strEndsWith (s t : String) : Bool := t.toList.isSuffixOf s.toList

/-! ## Orchestrator.__init__ script validation (orchestrator.py 89-95)

The config's `script` value is either absent, a string, a list of shell
lines, or something of another type. -/

inductive ScriptVal
  | str (s : String)
  | list (lines : List String)
  | other
deriving DecidableEq, Repr

def ScriptVal.isStr : ScriptVal → Bool
  | .str _ => true
  | _ => false

def ScriptVal.isList : ScriptVal → Bool
  | .list _ => true
  | _ => false

/-- The path carried by a string-valued script (only consulted when the value
is a string, mirroring the short-circuit of the source's `and`). -/
def ScriptVal.pathOf : ScriptVal → String
  | .str p => p
  | _ => ""

inductive InitError
  | keyError
  | fileNotFound
  | typeError
deriving DecidableEq, Repr

/-- Orchestrator.__init__ lines 89-95, verbatim structure:
`if 'script' not in config: raise KeyError`, then
`if isinstance(script, str) and not os.path.isfile(script): raise FileNotFoundError`
`elif not isinstance(script, list): raise TypeError`.
`isfile` stands for os.path.isfile on the invoking host. -/
def checkScript (script : Option ScriptVal) (isfile : String → Bool) : Except InitError Unit :=
  match script with
  | Option.none => Except.error InitError.keyError
  | some s =>
    if s.isStr = true ∧ isfile s.pathOf = false then Except.error InitError.fileNotFound
    else if s.isList = false then Except.error InitError.typeError
    else Except.ok ()

/-! ## run_pipeline and the CLI dry-run flag

orchestrator.py line 117 declares `def run_pipeline(self)`: no parameter
besides self.  __main__.py line 194 calls
`Orchestrator(conf).run_pipeline(args.dry_run)`: one positional argument.
A Python call to a method with no defaults and no varargs binds exactly when
the argument count equals the parameter count. -/

/-- Parameters `run_pipeline` accepts besides `self` (orchestrator.py 117). -/
def runPipelineParamCount : Nat := 0

/-- Positional arguments the CLI passes besides `self` (__main__.py 194). -/
def cliRunPipelineArgCount : Nat := 1

/-- Whether a Python call binds: for a method with no default values and no
varargs, the argument count must equal the parameter count. -/
def pythonCallBinds (params args : Nat) : Bool := args == params

/-- The straight-line phases of run_pipeline's body (orchestrator.py 117-192),
in source order.  No branch of the body consults a dry-run flag. -/
inductive PipelineStep
  | parseInputs
  | localizeInputs
  | writeEntrypoint
  | localizeJobs
  | waitReady
  | sbatchSubmit
  | poll
  | parseOutputs
deriving DecidableEq, Repr

/-- run_pipeline's body as the sequence of phases it always performs
(orchestrator.py 126-192): it is straight-line code with no conditional
around the `sbatch` call. -/
def runPipelineSteps : List PipelineStep :=
  [PipelineStep.parseInputs, PipelineStep.localizeInputs, PipelineStep.writeEntrypoint,
   PipelineStep.localizeJobs, PipelineStep.waitReady, PipelineStep.sbatchSubmit,
   PipelineStep.poll, PipelineStep.parseOutputs]

/-! ## Localizer.__exit__ (localization.py 101-108) -/

/-- Localizer.__exit__: given the (exc_type, exc_value, traceback) triple the
context-manager protocol passes (all None on clean exit, the exception data on
faulted exit), the backend commands it invokes.  The source runs
`rm -rf $CANINE_ROOT` exactly when the list of non-None arguments is empty. -/
def localizerExitCommands (canineRoot : String) (args : List (Option String)) : List String :=
  if (args.filter Option.isSome).length = 0 then ["rm -rf " ++ canineRoot] else []

/-! ## Orchestrator poll loop (orchestrator.py 180-189) -/

/-- Python `jid.split('_')[1]` (orchestrator.py 186): the array index of a composite
job id `"<batch>_<idx>"`; the ids the loop builds always contain one
underscore. -/
def arrayIndexOf (jid : String) : String :=
  ((splitOnChar jid.toList '_').map String.mk).getD 1 ""

/-- Lookup of a job id in the sacct table (`jid in acct.index` /
`acct['State'][jid]`). -/
def acctLookup (acct : List (String × String)) (jid : String) : Option String :=
  (acct.find? (fun kv => kv.1 == jid)).map Prod.snd

/-- The poll condition of orchestrator.py line 185: the id appears in the
sacct frame and its State is neither RUNNING nor PENDING. -/
def pollReady (acct : List (String × String)) (jid : String) : Bool :=
  match acctLookup acct jid with
  | some st => !(st == "RUNNING" || st == "PENDING")
  | Option.none => false

/-- One pass of the poll loop (orchestrator.py 184-189): iterate over a copy
of the waiting set; each ready element has `delocalize` invoked with its array
index and is removed from the waiting set.  Returns (array indices
delocalized, remaining waiting set).  No state makes the pass raise: the body
has no failure path. -/
def pollPass (waiting : List String) (acct : List (String × String)) :
    List String × List String :=
  ((waiting.filter (pollReady acct)).map arrayIndexOf,
   waiting.filter (fun j => !pollReady acct j))

/-! ## Localizer data model (localization.py 35-84)

`Localization = namedtuple("Localization", ['type', 'path'])` with
type one of None, 'stream', 'download'. -/

inductive LocType
  | none
  | stream
  | download
deriving DecidableEq, Repr

structure Localization where
  type : LocType
  path : String
deriving DecidableEq, Repr

/-- The Localizer's configuration: the constructor options (localization.py
47-84) plus `isfile`, standing for os.path.isfile on the controller. -/
structure LocalizerCfg where
  localize_gs : Bool
  common : Bool
  staging_dir : String
  mount_path : String
  isfile : String → Bool

/-- The field `self.env['CANINE_COMMON']`: the controller-side common directory. -/
def LocalizerCfg.envCommon (L : LocalizerCfg) : String := joinPath L.staging_dir "common"

/-- The field `self.env['CANINE_JOBS']`: the controller-side jobs directory. -/
def LocalizerCfg.envJobs (L : LocalizerCfg) : String := joinPath L.staging_dir "jobs"

/-- The field `self.environment['CANINE_COMMON']`: the compute-side common directory. -/
def LocalizerCfg.environmentCommon (L : LocalizerCfg) : String := joinPath L.mount_path "common"

/-- The field `self.environment['CANINE_JOBS']`: the compute-side jobs directory. -/
def LocalizerCfg.environmentJobs (L : LocalizerCfg) : String := joinPath L.mount_path "jobs"

/-- The shared staging filesystem as the Localizer's transport sees it:
the set of existing file paths, plus the `transport.send(local, remote)`
calls made so far (newest first).  Directories created by makedirs never
coincide with the file paths `transport.exists` is asked about here, so only
files are tracked. -/
structure TransportState where
  files : List String
  sent : List (String × String)
deriving DecidableEq, Repr

/-- The empty staging area: the Localizer starts under a fresh uuid directory. -/
def TransportState.empty : TransportState := ⟨[], []⟩

/-- The de-collision loop of localize_file (localization.py 226-228):
`while transport.exists(filepath): root, ext = splitext(filepath);
filepath = root + '._alt' + ext`.  Fuelled: every pass lengthens the name by
"._alt", so `files.length + 1` passes always leave the finite set. -/
def altLoop : Nat → List String → String → String
  | 0, _, p => p
  | fuel + 1, files, p =>
    if p ∈ files then
      let (root, ext) := splitext p
      altLoop fuel files (root ++ "._alt" ++ ext)
    else p

/-- Localizer.localize_file (localization.py 210-248).  Computes the
controller-side destination under `jobs/<id>/inputs/`, de-collides it with
`._alt`, copies unless `delayed` (gsutil cp for gs:// URIs when localize_gs,
transport.send for controller-local files, nothing otherwise), and returns
the compute-side path — which the source builds from the ORIGINAL basename of
the value, not from the de-collided destination. -/
def localize_file (L : LocalizerCfg) (st : TransportState)
    (jobId name value : String) (delayed : Bool) : String × TransportState :=
  let filepath0 := joinPath (joinPath (joinPath L.envJobs jobId) "inputs") (basename value)
  let filepath := altLoop (st.files.length + 1) st.files filepath0
  let st' :=
    if delayed = false then
      if L.localize_gs = true ∧ strStartsWith value "gs://" = true then
        { st with files := filepath :: st.files }
      else if L.isfile value = true then
        { st with files := filepath :: st.files, sent := (value, filepath) :: st.sent }
      else st
    else st
  (joinPath (joinPath (joinPath L.environmentJobs jobId) "inputs") (basename value), st')

/-! ## Override normalization and the common-input scan (localization.py 134-146) -/

/-- A raw YAML/CLI config value: a string or something of another type. -/
inductive ConfVal
  | str (s : String)
  | other
deriving DecidableEq, Repr

/-- localization.py 136: `{k: v.lower() if isinstance(v, str) else None}` —
string override values are lowercased, non-strings become None. -/
def normalizeOverrides (ov : List (String × ConfVal)) : List (String × Option String) :=
  ov.map (fun kv =>
    (kv.1, match kv.2 with
           | ConfVal.str s => some (strToLower s)
           | ConfVal.other => Option.none))

/-- Dictionary lookup in the normalized overrides: `Option.none` models
`arg not in overrides`, `some v` the stored (possibly None) value. -/
def ovLookup (ov : List (String × Option String)) (arg : String) : Option (Option String) :=
  (ov.find? (fun kv => kv.1 == arg)).map Prod.snd

/-- Python set.add on a list representation. -/
def addIfAbsent (x : String) (l : List String) : List String :=
  if x ∈ l then l else x :: l

/-- The occurrence list of the common scan: every (input name, value) pair of
every task, in iteration order (the job id plays no role in the scan). -/
def occurrences (inputs : List (String × List (String × String))) : List (String × String) :=
  (inputs.map Prod.snd).flatten

/-- The common-set scan of localize (localization.py 138-146): one pass over
all occurrences with a running `seen` set; a value in `seen` whose input name
is unoverridden or overridden 'common' is added, and a value whose input name
is overridden 'common' is added unconditionally. -/
def commonFold (ov : List (String × Option String)) :
    List (String × String) → List String → List String → List String
  | [], _, commonAcc => commonAcc
  | (arg, path) :: rest, seen, commonAcc =>
    let c1 :=
      if path ∈ seen ∧ (ovLookup ov arg = Option.none ∨ ovLookup ov arg = some (some "common"))
      then addIfAbsent path commonAcc else commonAcc
    let c2 :=
      if ovLookup ov arg = some (some "common") then addIfAbsent path c1 else c1
    commonFold ov rest (path :: seen) c2

/-- Materialization of the common set (localization.py 147-165): gs:// URIs
are copied by `gsutil cp` onto the controller-side common directory when
localize_gs is on, controller-local files go through `transport.send`, and
anything else is skipped with a warning.  Returns the value → compute-side
destination map and the transport state. -/
def materializeCommon (L : LocalizerCfg) :
    List String → List (String × String) → TransportState →
    List (String × String) × TransportState
  | [], dests, st => (dests, st)
  | path :: rest, dests, st =>
    if strStartsWith path "gs://" = true ∧ L.localize_gs = true then
      materializeCommon L rest
        (dests ++ [(path, joinPath L.environmentCommon (basename path))])
        { st with files := joinPath L.envCommon (basename path) :: st.files }
    else if L.isfile path = true then
      materializeCommon L rest
        (dests ++ [(path, joinPath L.environmentCommon (basename path))])
        { st with files := joinPath L.envCommon (basename path) :: st.files,
                  sent := (path, joinPath L.envCommon (basename path)) :: st.sent }
    else
      materializeCommon L rest dests st

/-! ## Per-task planning (localization.py 166-208) -/

/-- Plan one input of one task (the body of the loop at localization.py
171-208).  `Option.none` as result means NO branch of the source assigned a
record: the mode is present (`mode is not False`) but matches none of
'stream', 'localize', 'delayed' or None — which is what happens for a
'common' override and for any other unrecognized string. -/
def planInput (L : LocalizerCfg) (ov : List (String × Option String))
    (commonDests : List (String × String)) (jobId : String) (st : TransportState)
    (arg value : String) : Option Localization × TransportState :=
  match ovLookup ov arg with
  | some m =>
    match m with
    | some s =>
      if s = "stream" then (some ⟨LocType.stream, value⟩, st)
      else if s = "localize" then
        let (p, st') := localize_file L st jobId arg value false
        (some ⟨LocType.none, p⟩, st')
      else if s = "delayed" then
        if strStartsWith value "gs://" = false then
          let (p, st') := localize_file L st jobId arg value false
          (some ⟨LocType.none, p⟩, st')
        else (some ⟨LocType.download, value⟩, st)
      else (Option.none, st)
    | Option.none => (some ⟨LocType.none, value⟩, st)
  | Option.none =>
    match commonDests.find? (fun kv => kv.1 == value) with
    | some kv => (some ⟨LocType.none, kv.2⟩, st)
    | Option.none =>
      if L.isfile value = true ∨ strStartsWith value "gs://" = true then
        let (p, st') := localize_file L st jobId arg value false
        (some ⟨LocType.none, p⟩, st')
      else (some ⟨LocType.none, value⟩, st)

/-- The inner loop over one task's (name, value) pairs: entries whose branch
assigned nothing are simply absent from the task's dict. -/
def planJobInputs (L : LocalizerCfg) (ov : List (String × Option String))
    (commonDests : List (String × String)) (jobId : String) :
    List (String × String) → List (String × Localization) → TransportState →
    List (String × Localization) × TransportState
  | [], acc, st => (acc, st)
  | (arg, value) :: rest, acc, st =>
    match planInput L ov commonDests jobId st arg value with
    | (some r, st') => planJobInputs L ov commonDests jobId rest (acc ++ [(arg, r)]) st'
    | (Option.none, st') => planJobInputs L ov commonDests jobId rest acc st'

/-- The outer loop over tasks (localization.py 166-170): the workspace
directory is created (directories are not tracked, see TransportState) and
the task's input dict built. -/
def planJobs (L : LocalizerCfg) (ov : List (String × Option String))
    (commonDests : List (String × String)) :
    List (String × List (String × String)) →
    List (String × List (String × Localization)) → TransportState →
    List (String × List (String × Localization)) × TransportState
  | [], acc, st => (acc, st)
  | (jobId, data) :: rest, acc, st =>
    let (recs, st') := planJobInputs L ov commonDests jobId data [] st
    planJobs L ov commonDests rest (acc ++ [(jobId, recs)]) st'

/-- The result of Localizer.localize: the per-task input map `self.inputs`,
the common set `self.common_inputs`, the common destination map and the final
transport state. -/
structure PlanResult where
  inputs : List (String × List (String × Localization))
  commonInputs : List String
  commonDests : List (String × String)
  state : TransportState
deriving Repr

/-- Localizer.localize (localization.py 128-208): normalize the overrides,
scan for common values (when the common option is on), materialize them,
then plan every task's inputs. -/
def localize (L : LocalizerCfg) (inputs : List (String × List (String × String)))
    (overridesRaw : List (String × ConfVal)) : PlanResult :=
  let ov := normalizeOverrides overridesRaw
  let commons := if L.common = true then commonFold ov (occurrences inputs) [] [] else []
  let mat := materializeCommon L commons [] TransportState.empty
  let pj := planJobs L ov mat.1 inputs [] mat.2
  { inputs := pj.1, commonInputs := commons, commonDests := mat.1, state := pj.2 }

/-- Dictionary lookup in a planned task's input map. -/
def recLookup (l : List (String × Localization)) (k : String) : Option Localization :=
  (l.find? (fun kv => kv.1 == k)).map Prod.snd

/-- Dictionary lookup in the planned per-task map. -/
def jobLookup (l : List (String × List (String × Localization))) (k : String) :
    Option (List (String × Localization)) :=
  (l.find? (fun kv => kv.1 == k)).map Prod.snd

/-! ## setup.sh export synthesis (localization.py 261-330)

For a record of type None, localize_job writes the line
`'export {}="{}"'.format(key, shlex.quote(val.path))`: the shlex-quoted path
wrapped in double quotes. -/

/-- The safe character class of Python shlex.quote: its regex (ASCII word
characters plus the punctuation @ % + = : , . / - negated) finds nothing,
i.e. every character is an ASCII alphanumeric, an underscore or one of
@ % + = : , . slash hyphen. -/
def shlexSafe (c : Char) : Bool :=
  c.isAlphanum || c = '_' || c = '@' || c = '%' || c = '+' || c = '=' || c = ':' ||
  c = ',' || c = '.' || c = '/' || c = '-'

/-- The single-quote character. -/
def squoteChar : Char := Char.ofNat 39

/-- A single quote, as a string. -/
def squote : String := String.mk [squoteChar]

/-- Python shlex.quote: empty strings become two quotes, strings of safe
characters pass unchanged, anything else is wrapped in single quotes with
every embedded quote turned into the five characters quote-dquote-quote-dquote-quote. -/
def shlexQuote (s : String) : String :=
  if s = "" then squote ++ squote
  else if s.toList.all shlexSafe then s
  else squote ++ replaceChar s squoteChar (squote ++ "\"" ++ squote ++ "\"" ++ squote) ++ squote

/-- The backtick character. -/
def backquoteChar : Char := Char.ofNat 96

/-- The characters the POSIX shell treats specially between double quotes:
dollar, backquote, backslash and the closing double quote. -/
def dqSpecial (c : Char) : Bool :=
  c = '$' || c = backquoteChar || c = '\\' || c = '"'

/-- The value bash assigns from a double-quoted word whose body contains none
of the double-quote-special characters: the body itself, character for
character.  Bodies with a special character (expansions, escapes) are not
modelled and yield none. -/
def dquotedValue (body : String) : Option String :=
  if body.toList.all (fun c => !dqSpecial c) then some body else Option.none

/-- The export line localize_job writes for a type-None record
(localization.py 309-312). -/
def exportLine (key path : String) : String :=
  "export " ++ key ++ "=\"" ++ shlexQuote path ++ "\""

/-- The value the task's shell ends up exporting for a type-None record: the
double-quote evaluation of the shlex-quoted path. -/
def exportedValue (path : String) : Option String := dquotedValue (shlexQuote path)

/-! ## CLI config merge for inputs (__main__.py 155-170) -/

/-- A value of the merged config's `inputs` mapping: YAML supplies strings, the
CLI accumulation can turn one into a list. -/
inductive CVal
  | str (s : String)
  | vlist (l : List String)
deriving DecidableEq, Repr

/-- Python dict assignment on an association list: replace the first binding
of the key or append a new one. -/
def assocSet (l : List (String × CVal)) (k : String) (v : CVal) : List (String × CVal) :=
  if l.any (fun kv => kv.1 == k) then
    l.map (fun kv => if kv.1 == k then (k, v) else kv)
  else l ++ [(k, v)]

/-- The CLI input accumulation loop (__main__.py 156-164): a repeated name
already bound to a list gets the value appended; one bound to a string is
replaced by the two-element list; a fresh name is bound to the bare value. -/
def accumulateInputs : List (String × String) → List (String × CVal) → List (String × CVal)
  | [], acc => acc
  | (nm, val) :: rest, acc =>
    match (acc.find? (fun kv => kv.1 == nm)).map Prod.snd with
    | some (CVal.vlist l) => accumulateInputs rest (assocSet acc nm (CVal.vlist (l ++ [val])))
    | some (CVal.str s) => accumulateInputs rest (assocSet acc nm (CVal.vlist [s, val]))
    | Option.none => accumulateInputs rest (assocSet acc nm (CVal.str val))

/-- Python `{**base, **upd}`: every key of `upd` overrides `base`. -/
def dictMerge (base upd : List (String × CVal)) : List (String × CVal) :=
  base.map (fun kv =>
    match upd.find? (fun u => u.1 == kv.1) with
    | some u => u
    | Option.none => kv)
  ++ upd.filter (fun u => !(base.any (fun kv => kv.1 == u.1)))

/-- The inputs branch of main (__main__.py 155-170): when at least one
`--input` was given, accumulate the CLI pairs into a dict and merge it over
the YAML inputs with `{**conf['inputs'], **inputs}` (an absent YAML key is
first set to the empty dict). -/
def mergeInputs (confInputs : List (String × CVal)) (cli : List (String × String)) :
    List (String × CVal) :=
  if cli.isEmpty then confInputs
  else dictMerge confInputs (accumulateInputs cli [])

/-- Lookup in the merged inputs mapping. -/
def lookupVal (l : List (String × CVal)) (k : String) : Option CVal :=
  (l.find? (fun kv => kv.1 == k)).map Prod.snd

/-! ## Delocalization (localization.py 332-375) -/

/-- os.path.relpath(p, start) for paths below start, the only shape the
workspace walk produces. -/
def relpathUnder (p start : String) : String :=
  if strStartsWith p (start ++ "/") then strDrop p (start ++ "/").length else p

/-- Parse the body of a glob character class: scan to the closing bracket,
returning the member characters and what follows. -/
def findClose : List Char → List Char → Option (List Char × List Char)
  | [], _ => Option.none
  | ']' :: rest, acc => some (acc.reverse, rest)
  | c :: rest, acc => findClose rest (c :: acc)

/-- Parse a glob class after its opening bracket, Python fnmatch style: an
optional leading bang negates, a bracket right after that is a literal
member, and the next closing bracket ends the class.  None when there is no
closing bracket (the opening bracket is then a literal). -/
def parseClass (l : List Char) : Option (Bool × List Char × List Char) :=
  let (neg, l1) := match l with
                   | '!' :: t => (true, t)
                   | _ => (false, l)
  let (first, l2) := match l1 with
                     | ']' :: t => ([']'], t)
                     | _ => (([] : List Char), l1)
  match findClose l2 [] with
  | some (content, rest) => some (neg, first ++ content, rest)
  | Option.none => Option.none

/-- Membership in a glob class body: a dash between two characters denotes a
range, a trailing or leading dash is literal. -/
def classMatches : List Char → Char → Bool
  | a :: '-' :: b :: rest, c => (a ≤ c ∧ c ≤ b : Bool) || classMatches rest c
  | a :: rest, c => a == c || classMatches rest c
  | [], _ => false

/-- The fnmatch glob matcher: star matches any run (slashes included, as in
Python fnmatch), question mark any one character, classes as parsed above,
everything else literally.  Fuelled: every call shrinks pattern length plus
string length, so that sum plus one is always enough fuel. -/
def globMatch : Nat → List Char → List Char → Bool
  | 0, _, _ => false
  | _ + 1, [], s => s.isEmpty
  | fuel + 1, '*' :: ps, s =>
    globMatch fuel ps s ||
      (match s with
       | [] => false
       | _ :: cs => globMatch fuel ('*' :: ps) cs)
  | fuel + 1, '?' :: ps, s =>
    (match s with
     | [] => false
     | _ :: cs => globMatch fuel ps cs)
  | fuel + 1, '[' :: ps, s =>
    (match parseClass ps with
     | some (neg, content, rest) =>
       (match s with
        | [] => false
        | c :: cs => (classMatches content c != neg) && globMatch fuel rest cs)
     | Option.none =>
       (match s with
        | [] => false
        | c :: cs => ('[' == c) && globMatch fuel ps cs))
  | fuel + 1, p :: ps, s =>
    (match s with
     | [] => false
     | c :: cs => (p == c) && globMatch fuel ps cs)

/-- fnmatch.fnmatch on POSIX (normcase is the identity there). -/
def fnmatch (nameStr pat : String) : Bool :=
  globMatch (pat.length + nameStr.length + 1) pat.toList nameStr.toList

/-- Python dict assignment for the delocalize output map. -/
def outSet (l : List (String × String)) (k v : String) : List (String × String) :=
  if l.any (fun kv => kv.1 == k) then
    l.map (fun kv => if kv.1 == k then (k, v) else kv)
  else l ++ [(k, v)]

/-- The state delocalize threads: directories existing on the invoking host,
the transport.receive calls made, the files existing on the transport, the
transport.remove calls made, the output_files dict, and the pending raised
exception — once set, nothing further runs. -/
structure DelocState where
  hostDirs : List String
  received : List (String × String)
  transportFiles : List String
  removed : List String
  outputs : List (String × String)
  error : Option String
deriving DecidableEq, Repr

/-- Localizer.delocalize_file (localization.py 360-375): build
`<output_dir>/<jobId>/<name>/<basename>`, run os.makedirs on its dirname —
which raises FileExistsError when that leaf directory already exists, and
otherwise creates it together with its ancestors — then transport.receive
the file there. -/
def delocalize_file (st : DelocState) (jobId name fullname output_dir : String) :
    Option String × DelocState :=
  let leaf := joinPath (joinPath output_dir jobId) name
  let output_path := joinPath leaf (basename fullname)
  if leaf ∈ st.hostDirs then
    (Option.none, { st with error := some ("FileExistsError: " ++ leaf) })
  else
    (some output_path,
     { st with
        hostDirs := leaf :: joinPath output_dir jobId :: output_dir :: st.hostDirs,
        received := st.received ++ [(fullname, output_path)] })

/-- The match branch of delocalize (localization.py 354-357): receive the
file, record it under its output name, then (when delete is set and the path
is a transport file) remove it from the worker tree. -/
def processMatch (st : DelocState) (jobId name fullname output_dir : String)
    (delete : Bool) : DelocState :=
  match delocalize_file st jobId name fullname output_dir with
  | (some p, st') =>
    let st'' := { st' with outputs := outSet st'.outputs name p }
    if delete = true ∧ fullname ∈ st''.transportFiles then
      { st'' with
          transportFiles := st''.transportFiles.erase fullname,
          removed := st''.removed ++ [fullname] }
    else st''
  | (Option.none, st') => st'

/-- One filename of one (name, pattern) pair in one walked directory
(localization.py 351-357): nothing runs once an exception is pending;
otherwise the file is processed when the pattern matches its full path or its
path relative to the workspace. -/
def processFile (start_dir output_dir jobId : String) (delete : Bool)
    (dirpath name pattern filename : String) (st : DelocState) : DelocState :=
  if st.error.isSome then st
  else
    let fullname := joinPath dirpath filename
    if fnmatch fullname pattern || fnmatch (relpathUnder fullname start_dir) pattern then
      processMatch st jobId name fullname output_dir delete
    else st

/-- Localizer.delocalize for one job id (localization.py 346-358): walk the
workspace (given as the list of (dirpath, filenames) the transport walk
yields), and for every directory, every declared (name, pattern) and every
filename, process matching files. -/
def delocalizeJob (stagingJobs : String) (patterns : List (String × String))
    (output_dir jobId : String) (walk : List (String × List String))
    (delete : Bool) (st0 : DelocState) : DelocState :=
  let start_dir := joinPath (joinPath stagingJobs jobId) "workspace"
  walk.foldl (fun st entry =>
    patterns.foldl (fun st np =>
      entry.2.foldl (fun st filename =>
        processFile start_dir output_dir jobId delete entry.1 np.1 np.2 filename st) st) st) st0

/-! ## Concrete configurations used by the theorems -/

/-- A Localizer configuration with the default options on a host where no
input value is an existing file. -/
def cfgNoFiles : LocalizerCfg :=
  { localize_gs := true, common := true, staging_dir := "root", mount_path := "mnt",
    isfile := fun _ => false }

/-- A Localizer configuration on a host where exactly the two files
/a/x.txt and /b/x.txt exist. -/
def cfgTwoX : LocalizerCfg :=
  { localize_gs := true, common := true, staging_dir := "root", mount_path := "mnt",
    isfile := fun p => p == "/a/x.txt" || p == "/b/x.txt" }

/-- A Localizer configuration on a host where exactly /tmp/v.txt exists. -/
def cfgOneV : LocalizerCfg :=
  { localize_gs := true, common := true, staging_dir := "root", mount_path := "mnt",
    isfile := fun p => p == "/tmp/v.txt" }

/-! ## Claim theorems -/

/-- C1: the claim says constructing an Orchestrator from a config whose
`script` is a path string naming an existing shell file succeeds.  The code
disagrees: the `elif not isinstance(self.script, list)` at orchestrator.py 94
also fires for a string naming an existing file (the first branch only
filtered out nonexistent paths), so EVERY string script raises TypeError —
here evaluated at a config whose script names a file that exists — while a
list script is accepted. -/
theorem script_path_string_raises_typeError :
    checkScript (some (ScriptVal.str "/tmp/run.sh")) (fun p => p == "/tmp/run.sh") =
      Except.error InitError.typeError ∧
    checkScript (some (ScriptVal.list ["echo hi"])) (fun p => p == "/tmp/run.sh") =
      Except.ok () := by
  constructor <;> rfl

/-- C2: the claim says an input overridden 'common' ends with a type-none
record pointing at the common destination.  The code disagrees: the mode
'common' enters the `if mode is not False` chain at localization.py 173 and
matches none of its branches, so NO record is assigned — the task's input
dict stays empty even though the value was added to the common set.
Evaluated at inputs {"0": {"x": "v"}} with override {"x": "common"}. -/
theorem common_override_leaves_no_input_record :
    (localize cfgNoFiles [("0", [("x", "v")])] [("x", ConfVal.str "common")]).inputs =
      [("0", [])] ∧
    "v" ∈ (localize cfgNoFiles [("0", [("x", "v")])] [("x", ConfVal.str "common")]).commonInputs := by
  constructor
  · rfl
  · decide

/-- C3 counterexample: the claim says YAML inputs.x=a combined with a single
`--input x:b` yields inputs.x=[a,b].  It does not: the CLI accumulation only
sees the CLI pairs, and the final `{**conf['inputs'], **inputs}` merge
replaces the YAML value wholesale, yielding inputs.x=b. -/
theorem cli_input_overrides_yaml_value :
    lookupVal (mergeInputs [("x", CVal.str "a")] [("x", "b")]) "x" = some (CVal.str "b") ∧
    lookupVal (mergeInputs [("x", CVal.str "a")] [("x", "b")]) "x" ≠
      some (CVal.vlist ["a", "b"]) := by
  constructor
  · rfl
  · decide

/-- C3 amended: a single `--input x:b` replaces any YAML value for x entirely
(the result is the bare string b, not a list), while repeated `--input`
options for the same name accumulate among themselves, so `--input x:b
--input x:c` with no YAML value yields the list [b, c]. -/
theorem cli_input_merge_amended (a b c : String) :
    lookupVal (mergeInputs [("x", CVal.str a)] [("x", b)]) "x" = some (CVal.str b) ∧
    lookupVal (mergeInputs [] [("x", b), ("x", c)]) "x" = some (CVal.vlist [b, c]) := by
  constructor <;> rfl

/-- C4: the claim says `--dry-run` makes the run stop before sbatch.  The
code disagrees twice over: run_pipeline (orchestrator.py 117) accepts no
parameter besides self, so the CLI call `run_pipeline(args.dry_run)`
(__main__.py 194) does not even bind — it raises TypeError for every CLI
invocation — and run_pipeline's straight-line body contains the sbatch phase
unconditionally, with no dry-run branch anywhere. -/
theorem dry_run_not_accepted_and_sbatch_unconditional :
    pythonCallBinds runPipelineParamCount cliRunPipelineArgCount = false ∧
    PipelineStep.sbatchSubmit ∈ runPipelineSteps := by
  constructor
  · rfl
  · decide

/-- C5 counterexample: the claim says that when two tasks supply different
local files both named x.txt (neither common), the second task's recorded
staged path ends in "._alt.txt".  It does not: each task stages into its own
jobs/<id>/inputs/ directory, so there is no collision and the second task's
record is mnt/jobs/1/inputs/x.txt, which does not end in "._alt.txt". -/
theorem same_basename_two_tasks_no_alt_suffix :
    recLookup ((jobLookup (localize cfgTwoX
        [("0", [("data", "/a/x.txt")]), ("1", [("data", "/b/x.txt")])] []).inputs "1").getD [])
      "data" = some ⟨LocType.none, "mnt/jobs/1/inputs/x.txt"⟩ ∧
    strEndsWith "mnt/jobs/1/inputs/x.txt" "._alt.txt" = false := by
  constructor
  · rfl
  · decide

/-- C5 amended: with two tasks supplying different local files that share
the basename x.txt and neither value common, both files are eagerly copied —
task 0's to root/jobs/0/inputs/x.txt and task 1's to
root/jobs/1/inputs/x.txt, distinct destinations in the two per-task inputs
directories, so no de-collision fires — and each task's recorded staged path
is mnt/jobs/<id>/inputs/x.txt; the second task's path ends in "/x.txt", not
"._alt.txt". -/
theorem same_basename_two_tasks_amended :
    (localize cfgTwoX [("0", [("data", "/a/x.txt")]), ("1", [("data", "/b/x.txt")])] []).inputs =
      [("0", [("data", ⟨LocType.none, "mnt/jobs/0/inputs/x.txt"⟩)]),
       ("1", [("data", ⟨LocType.none, "mnt/jobs/1/inputs/x.txt"⟩)])] ∧
    (localize cfgTwoX [("0", [("data", "/a/x.txt")]), ("1", [("data", "/b/x.txt")])] []).state.sent =
      [("/b/x.txt", "root/jobs/1/inputs/x.txt"), ("/a/x.txt", "root/jobs/0/inputs/x.txt")] ∧
    strEndsWith "mnt/jobs/1/inputs/x.txt" "/x.txt" = true := by
  refine ⟨rfl, rfl, by decide⟩

/-- C7: the claim says a passthrough value is exported verbatim.  The code
disagrees for any value shlex.quote changes: localize records the literal
value (here "a b", which is no file and no gs:// URI), but localize_job
writes `export x="<shlex.quote(value)>"` — the quote's output wrapped AGAIN
in double quotes — so the shell assigns the five characters quote-a-blank-b-quote
rather than a-blank-b. -/
theorem passthrough_export_not_verbatim :
    recLookup ((jobLookup (localize cfgNoFiles [("0", [("x", "a b")])] []).inputs "0").getD [])
      "x" = some ⟨LocType.none, "a b"⟩ ∧
    exportedValue "a b" = some (squote ++ "a b" ++ squote) ∧
    squote ++ "a b" ++ squote ≠ "a b" := by
  refine ⟨rfl, rfl, by decide⟩

/-- C9: the Localizer's scope exit runs `rm -rf $CANINE_ROOT` if and only if
every member of the (exc_type, exc_value, traceback) triple is None — i.e.
exactly on clean exit; a faulted exit (any non-None argument) leaves the
staging tree in place. -/
theorem staging_cleanup_iff_clean_exit (root : String) (args : List (Option String)) :
    ("rm -rf " ++ root) ∈ localizerExitCommands root args ↔ ∀ a ∈ args, a = Option.none := by
  unfold localizerExitCommands
  split
  case isTrue h =>
    have hnil : args.filter Option.isSome = [] := List.length_eq_zero.mp h
    simp only [List.mem_singleton, true_iff, eq_self_iff_true]
    intro a ha
    by_contra hne
    have hs : a.isSome := Option.ne_none_iff_isSome.mp hne
    have hmem : a ∈ args.filter Option.isSome := List.mem_filter.mpr ⟨ha, hs⟩
    rw [hnil] at hmem
    exact absurd hmem (List.not_mem_nil a)
  case isFalse h =>
    constructor
    · intro hmem
      exact absurd hmem (List.not_mem_nil _)
    · intro hall
      exfalso
      apply h
      have hnil : args.filter Option.isSome = [] := by
        apply List.filter_eq_nil_iff.mpr
        intro a ha
        simp [hall a ha]
      rw [hnil]
      rfl

/-- C8: in a poll pass, every waiting array element whose sacct State is
neither RUNNING nor PENDING (FAILED and every other terminal state included)
has delocalize invoked with its array index and is removed from the waiting
set; and when every waiting element is in such a state the waiting set
empties, so the loop — which has no failure path — exits and run_pipeline
completes normally. -/
theorem terminal_state_delocalized_and_removed
    (waiting : List String) (acct : List (String × String)) (jid st : String)
    (hmem : jid ∈ waiting) (hacct : acctLookup acct jid = some st)
    (hrun : st ≠ "RUNNING") (hpend : st ≠ "PENDING") :
    arrayIndexOf jid ∈ (pollPass waiting acct).1 ∧
    jid ∉ (pollPass waiting acct).2 ∧
    ((∀ j ∈ waiting, pollReady acct j = true) → (pollPass waiting acct).2 = []) := by
  have hready : pollReady acct jid = true := by
    simp [pollReady, hacct, hrun, hpend]
  refine ⟨?_, ?_, ?_⟩
  · exact List.mem_map.mpr ⟨jid, List.mem_filter.mpr ⟨hmem, hready⟩, rfl⟩
  · intro hc
    have hkeep := (List.mem_filter.mp hc).2
    rw [hready] at hkeep
    exact absurd hkeep (by decide)
  · intro hall
    apply List.filter_eq_nil_iff.mpr
    intro j hj
    simp [hall j hj]

/-- C8 witness: a two-element waiting set where one task FAILED. -/
theorem terminal_state_delocalized_and_removed_witness :
    arrayIndexOf "12_0" ∈ (pollPass ["12_0", "12_1"] [("12_0", "FAILED")]).1 ∧
    "12_0" ∉ (pollPass ["12_0", "12_1"] [("12_0", "FAILED")]).2 ∧
    ((∀ j ∈ ["12_0", "12_1"], pollReady [("12_0", "FAILED")] j = true) →
      (pollPass ["12_0", "12_1"] [("12_0", "FAILED")]).2 = []) :=
  terminal_state_delocalized_and_removed ["12_0", "12_1"] [("12_0", "FAILED")] "12_0" "FAILED"
    (by decide) (by decide) (by decide) (by decide)

/-- Membership through Python set.add. -/
theorem mem_addIfAbsent (v x : String) (l : List String) :
    v ∈ addIfAbsent x l ↔ v = x ∨ v ∈ l := by
  unfold addIfAbsent
  split
  case isTrue h =>
    constructor
    · exact Or.inr
    · rintro (rfl | hv)
      · exact h
      · exact hv
  case isFalse h =>
    exact List.mem_cons

/-- Membership after one step of the common scan: the value is added exactly
when the occurrence's name is overridden 'common', or the name is unoverridden
and the value was already seen. -/
theorem commonStep_mem (ov : List (String × Option String)) (a₀ p₀ : String)
    (seen acc : List String) (v : String) :
    v ∈ (if ovLookup ov a₀ = some (some "common")
         then addIfAbsent p₀
           (if p₀ ∈ seen ∧ (ovLookup ov a₀ = Option.none ∨ ovLookup ov a₀ = some (some "common"))
            then addIfAbsent p₀ acc else acc)
         else
           (if p₀ ∈ seen ∧ (ovLookup ov a₀ = Option.none ∨ ovLookup ov a₀ = some (some "common"))
            then addIfAbsent p₀ acc else acc)) ↔
      v ∈ acc ∨ (v = p₀ ∧ (ovLookup ov a₀ = some (some "common") ∨
                           (ovLookup ov a₀ = Option.none ∧ p₀ ∈ seen))) := by
  rcases hov : ovLookup ov a₀ with _ | m
  · by_cases hS : p₀ ∈ seen <;> simp [hov, hS, mem_addIfAbsent] <;> tauto
  · by_cases hm : m = some "common" <;> by_cases hS : p₀ ∈ seen <;>
      simp [hov, hm, hS, mem_addIfAbsent] <;> tauto

/-- Splitting the occurrence existential over a cons cell: the marked
occurrence is either the head (and the preceding-occurrence condition
collapses to the seen set) or lies in the tail (and the head joins either the
seen set or the prefix). -/
theorem commonCond_split_iff (ov : List (String × Option String)) (v a₀ p₀ : String)
    (tl : List (String × String)) (seen : List String) :
    (∃ pre a post, (a₀, p₀) :: tl = pre ++ (a, v) :: post ∧
       (ovLookup ov a = some (some "common") ∨
        (ovLookup ov a = Option.none ∧ (v ∈ seen ∨ v ∈ pre.map Prod.snd)))) ↔
      ((v = p₀ ∧ (ovLookup ov a₀ = some (some "common") ∨
          (ovLookup ov a₀ = Option.none ∧ p₀ ∈ seen))) ∨
       ∃ pre a post, tl = pre ++ (a, v) :: post ∧
         (ovLookup ov a = some (some "common") ∨
          (ovLookup ov a = Option.none ∧ (v ∈ p₀ :: seen ∨ v ∈ pre.map Prod.snd)))) := by
  constructor
  · rintro ⟨pre, a, post, heq, hc⟩
    cases pre with
    | nil =>
      simp only [List.nil_append, List.cons.injEq, Prod.mk.injEq] at heq
      obtain ⟨⟨ha, hp⟩, hpost⟩ := heq
      subst ha
      subst hp
      left
      exact ⟨rfl, by simpa using hc⟩
    | cons q pre' =>
      simp only [List.cons_append, List.cons.injEq] at heq
      obtain ⟨hq, htl⟩ := heq
      subst hq
      right
      refine ⟨pre', a, post, htl, ?_⟩
      rcases hc with h | ⟨hn, hmem⟩
      · exact Or.inl h
      · refine Or.inr ⟨hn, ?_⟩
        simp only [List.map_cons, List.mem_cons] at hmem ⊢
        tauto
  · rintro (⟨hv, hc⟩ | ⟨pre, a, post, heq, hc⟩)
    · subst hv
      refine ⟨[], a₀, tl, by simp, ?_⟩
      simpa using hc
    · refine ⟨(a₀, p₀) :: pre, a, post, by simp [heq], ?_⟩
      rcases hc with h | ⟨hn, hmem⟩
      · exact Or.inl h
      · refine Or.inr ⟨hn, ?_⟩
        simp only [List.map_cons, List.mem_cons] at hmem ⊢
        tauto

/-- Full characterization of the common scan: a value lands in the common
set iff some occurrence of it has its name overridden 'common', or some
occurrence of it with an unoverridden name is preceded by an earlier
occurrence of the same value (or the value was already seen). -/
theorem commonFold_mem_iff (ov : List (String × Option String)) (v : String) :
    ∀ (occs : List (String × String)) (seen acc : List String),
      v ∈ commonFold ov occs seen acc ↔
        v ∈ acc ∨ ∃ pre a post, occs = pre ++ (a, v) :: post ∧
          (ovLookup ov a = some (some "common") ∨
           (ovLookup ov a = Option.none ∧ (v ∈ seen ∨ v ∈ pre.map Prod.snd))) := by
  intro occs
  induction occs with
  | nil =>
    intro seen acc
    simp [commonFold]
  | cons hd tl ih =>
    intro seen acc
    obtain ⟨a₀, p₀⟩ := hd
    simp only [commonFold]
    rw [ih, commonStep_mem, commonCond_split_iff]
    aesop

/-- C6 counterexample: the claim says a value referenced twice by a single
task only is never materialized under common/.  It is: with the one task "0"
referencing the existing file /tmp/v.txt under two input names and no
overrides, the scan (which tracks values across (task, name) occurrences, not
distinct tasks) adds it to the common set, and since it is a local file it is
sent to root/common/v.txt — for an input list holding exactly one task. -/
theorem single_task_duplicate_value_materialized_common :
    (localize cfgOneV [("0", [("x", "/tmp/v.txt"), ("y", "/tmp/v.txt")])] []).commonDests =
      [("/tmp/v.txt", "mnt/common/v.txt")] ∧
    (localize cfgOneV [("0", [("x", "/tmp/v.txt"), ("y", "/tmp/v.txt")])] []).state.sent =
      [("/tmp/v.txt", "root/common/v.txt")] ∧
    [("0", [("x", "/tmp/v.txt"), ("y", "/tmp/v.txt")])].length = 1 := by
  refine ⟨rfl, rfl, rfl⟩

/-- C6 amended: with the common option on, a value is in the common set iff
some occurrence of it (scanning (task id, input name, value) triples in
order) has its input name overridden 'common', or some occurrence of it whose
input name is unoverridden is preceded by an earlier occurrence of the same
value — possibly within the same task; the count is over occurrences, not
over distinct tasks.  (It is then materialized under common/ only if it is a
gs:// URI with gs localization on, or an existing local file.) -/
theorem common_set_membership_amended (L : LocalizerCfg)
    (inputs : List (String × List (String × String))) (ovRaw : List (String × ConfVal))
    (v : String) (hc : L.common = true) :
    v ∈ (localize L inputs ovRaw).commonInputs ↔
      ∃ pre a post, occurrences inputs = pre ++ (a, v) :: post ∧
        (ovLookup (normalizeOverrides ovRaw) a = some (some "common") ∨
         (ovLookup (normalizeOverrides ovRaw) a = Option.none ∧ v ∈ pre.map Prod.snd)) := by
  have hci : (localize L inputs ovRaw).commonInputs =
      commonFold (normalizeOverrides ovRaw) (occurrences inputs) [] [] := by
    simp [localize, hc]
  rw [hci, commonFold_mem_iff]
  simp

/-- C6 witness: the amended characterization applied to the single-task
double-reference instance. -/
theorem common_set_membership_amended_witness :
    "/tmp/v.txt" ∈ (localize cfgOneV [("0", [("x", "/tmp/v.txt"), ("y", "/tmp/v.txt")])] []).commonInputs ↔
      ∃ pre a post,
        occurrences [("0", [("x", "/tmp/v.txt"), ("y", "/tmp/v.txt")])] = pre ++ (a, "/tmp/v.txt") :: post ∧
        (ovLookup (normalizeOverrides []) a = some (some "common") ∨
         (ovLookup (normalizeOverrides []) a = Option.none ∧ "/tmp/v.txt" ∈ pre.map Prod.snd)) :=
  common_set_membership_amended cfgOneV [("0", [("x", "/tmp/v.txt"), ("y", "/tmp/v.txt")])] []
    "/tmp/v.txt" rfl

/-- Once an exception is pending, a processFile step changes nothing. -/
theorem processFile_error_fixed (sd od jid : String) (del : Bool) (dp nm pat fn : String)
    (st : DelocState) (h : st.error.isSome = true) :
    processFile sd od jid del dp nm pat fn st = st := by
  unfold processFile
  simp [h]

/-- Once an exception is pending, the remaining filename fold changes nothing. -/
theorem foldl_processFile_error (sd od jid : String) (del : Bool) (dp nm pat : String)
    (fns : List String) (st : DelocState) (h : st.error.isSome = true) :
    fns.foldl (fun s f => processFile sd od jid del dp nm pat f s) st = st := by
  induction fns with
  | nil => rfl
  | cons f fns ih =>
    rw [List.foldl_cons, processFile_error_fixed sd od jid del dp nm pat f st h]
    exact ih

/-- C10: when one task's workspace holds two (or more) files matching the one
declared output pattern, delocalize receives the first match into
`<output_dir>/<jobId>/<name>/` and (delete being set) removes it from the
worker tree, then raises while handling the second match — os.makedirs is
attempted again on the already-created `<output_dir>/<jobId>/<name>/`
without tolerating an existing directory — and the output mapping holds
exactly the one delocalized path for the output name. -/
theorem duplicate_output_match_raises_after_first
    (stagingJobs output_dir jobId name pattern d f1 f2 : String)
    (rest : List String) (tfiles : List String)
    (h1 : (fnmatch (joinPath d f1) pattern ||
           fnmatch (relpathUnder (joinPath d f1) (joinPath (joinPath stagingJobs jobId) "workspace")) pattern) = true)
    (h2 : (fnmatch (joinPath d f2) pattern ||
           fnmatch (relpathUnder (joinPath d f2) (joinPath (joinPath stagingJobs jobId) "workspace")) pattern) = true)
    (hf : joinPath d f1 ∈ tfiles) :
    (delocalizeJob stagingJobs [(name, pattern)] output_dir jobId [(d, f1 :: f2 :: rest)] true
        ⟨[], [], tfiles, [], [], Option.none⟩).error =
      some ("FileExistsError: " ++ joinPath (joinPath output_dir jobId) name) ∧
    (delocalizeJob stagingJobs [(name, pattern)] output_dir jobId [(d, f1 :: f2 :: rest)] true
        ⟨[], [], tfiles, [], [], Option.none⟩).received =
      [(joinPath d f1,
        joinPath (joinPath (joinPath output_dir jobId) name) (basename (joinPath d f1)))] ∧
    (delocalizeJob stagingJobs [(name, pattern)] output_dir jobId [(d, f1 :: f2 :: rest)] true
        ⟨[], [], tfiles, [], [], Option.none⟩).removed = [joinPath d f1] ∧
    (delocalizeJob stagingJobs [(name, pattern)] output_dir jobId [(d, f1 :: f2 :: rest)] true
        ⟨[], [], tfiles, [], [], Option.none⟩).outputs =
      [(name,
        joinPath (joinPath (joinPath output_dir jobId) name) (basename (joinPath d f1)))] := by
  have e1 : processFile (joinPath (joinPath stagingJobs jobId) "workspace") output_dir jobId
      true d name pattern f1 ⟨[], [], tfiles, [], [], Option.none⟩ =
      ⟨[joinPath (joinPath output_dir jobId) name, joinPath output_dir jobId, output_dir],
       [(joinPath d f1,
         joinPath (joinPath (joinPath output_dir jobId) name) (basename (joinPath d f1)))],
       tfiles.erase (joinPath d f1), [joinPath d f1],
       [(name,
         joinPath (joinPath (joinPath output_dir jobId) name) (basename (joinPath d f1)))],
       Option.none⟩ := by
    simp [processFile, processMatch, delocalize_file, outSet, h1, hf]
  have e2 : processFile (joinPath (joinPath stagingJobs jobId) "workspace") output_dir jobId
      true d name pattern f2
      ⟨[joinPath (joinPath output_dir jobId) name, joinPath output_dir jobId, output_dir],
       [(joinPath d f1,
         joinPath (joinPath (joinPath output_dir jobId) name) (basename (joinPath d f1)))],
       tfiles.erase (joinPath d f1), [joinPath d f1],
       [(name,
         joinPath (joinPath (joinPath output_dir jobId) name) (basename (joinPath d f1)))],
       Option.none⟩ =
      ⟨[joinPath (joinPath output_dir jobId) name, joinPath output_dir jobId, output_dir],
       [(joinPath d f1,
         joinPath (joinPath (joinPath output_dir jobId) name) (basename (joinPath d f1)))],
       tfiles.erase (joinPath d f1), [joinPath d f1],
       [(name,
         joinPath (joinPath (joinPath output_dir jobId) name) (basename (joinPath d f1)))],
       some ("FileExistsError: " ++ joinPath (joinPath output_dir jobId) name)⟩ := by
    simp [processFile, processMatch, delocalize_file, h2]
  have e3 : List.foldl
      (fun s f => processFile (joinPath (joinPath stagingJobs jobId) "workspace") output_dir
        jobId true d name pattern f s)
      ⟨[joinPath (joinPath output_dir jobId) name, joinPath output_dir jobId, output_dir],
       [(joinPath d f1,
         joinPath (joinPath (joinPath output_dir jobId) name) (basename (joinPath d f1)))],
       tfiles.erase (joinPath d f1), [joinPath d f1],
       [(name,
         joinPath (joinPath (joinPath output_dir jobId) name) (basename (joinPath d f1)))],
       some ("FileExistsError: " ++ joinPath (joinPath output_dir jobId) name)⟩ rest =
      ⟨[joinPath (joinPath output_dir jobId) name, joinPath output_dir jobId, output_dir],
       [(joinPath d f1,
         joinPath (joinPath (joinPath output_dir jobId) name) (basename (joinPath d f1)))],
       tfiles.erase (joinPath d f1), [joinPath d f1],
       [(name,
         joinPath (joinPath (joinPath output_dir jobId) name) (basename (joinPath d f1)))],
       some ("FileExistsError: " ++ joinPath (joinPath output_dir jobId) name)⟩ :=
    foldl_processFile_error _ _ _ _ _ _ _ rest _ rfl
  simp only [delocalizeJob, List.foldl_cons, List.foldl_nil]
  rw [e1, e2, e3]
  exact ⟨rfl, rfl, rfl, rfl⟩

/-- C10 witness: two text files in one workspace both matching the declared
glob for the output "log". -/
theorem duplicate_output_match_raises_after_first_witness :
    (delocalizeJob "r/jobs" [("log", "*.txt")] "canine_output" "0"
        [("r/jobs/0/workspace", "a.txt" :: "b.txt" :: [])] true
        ⟨[], [], ["r/jobs/0/workspace/a.txt", "r/jobs/0/workspace/b.txt"], [], [],
         Option.none⟩).error =
      some ("FileExistsError: " ++ joinPath (joinPath "canine_output" "0") "log") ∧
    (delocalizeJob "r/jobs" [("log", "*.txt")] "canine_output" "0"
        [("r/jobs/0/workspace", "a.txt" :: "b.txt" :: [])] true
        ⟨[], [], ["r/jobs/0/workspace/a.txt", "r/jobs/0/workspace/b.txt"], [], [],
         Option.none⟩).received =
      [(joinPath "r/jobs/0/workspace" "a.txt",
        joinPath (joinPath (joinPath "canine_output" "0") "log")
          (basename (joinPath "r/jobs/0/workspace" "a.txt")))] ∧
    (delocalizeJob "r/jobs" [("log", "*.txt")] "canine_output" "0"
        [("r/jobs/0/workspace", "a.txt" :: "b.txt" :: [])] true
        ⟨[], [], ["r/jobs/0/workspace/a.txt", "r/jobs/0/workspace/b.txt"], [], [],
         Option.none⟩).removed = [joinPath "r/jobs/0/workspace" "a.txt"] ∧
    (delocalizeJob "r/jobs" [("log", "*.txt")] "canine_output" "0"
        [("r/jobs/0/workspace", "a.txt" :: "b.txt" :: [])] true
        ⟨[], [], ["r/jobs/0/workspace/a.txt", "r/jobs/0/workspace/b.txt"], [], [],
         Option.none⟩).outputs =
      [("log",
        joinPath (joinPath (joinPath "canine_output" "0") "log")
          (basename (joinPath "r/jobs/0/workspace" "a.txt")))] :=
  duplicate_output_match_raises_after_first "r/jobs" "canine_output" "0" "log" "*.txt"
    "r/jobs/0/workspace" "a.txt" "b.txt" []
    ["r/jobs/0/workspace/a.txt", "r/jobs/0/workspace/b.txt"]
    (by decide) (by decide) (by decide)

end Canine
